import Mathlib

/-!
Verification development for the RIPE database inetnum query tool
(`ripe_inetnum_query.py`).

The Python program is shallowly embedded: Python `str` values are modelled
as `List Char` (`Str`), Python machine-independent big integers as `Nat`,
JSON payloads as the inductive `JVal`, Python `dict` records as ordered
association lists, and every fallible operation (a raising constructor,
a `try`/`except` block) as `Option`/`Except`.  The relevant behaviour of
the standard `ipaddress` module (the external collaborator the script
builds on) is embedded from CPython's implementation: `IPv4Address` /
`IPv6Address` string parsing, `IPv4Network` / `IPv6Network` construction
with `strict=False` masking, netmask construction, `overlaps` and the
compressed IPv6 textual form.
-/

set_option maxRecDepth 10000

/-- Python strings are modelled as lists of characters. -/
abbrev Str := List Char

/-- Python `str.split(c)` for a single-character separator.  Always returns
a non-empty list; empty pieces are kept (`"a..b".split('.') == ['a','','b']`). -/
def splitChar (c : Char) : Str → List Str
  | [] => [[]]
  | a :: rest =>
    match splitChar c rest with
    | h :: t => if a = c then [] :: h :: t else (a :: h) :: t
    | [] => [[a]]

/-- Does `s` start with `sep` (Python `str.startswith`)? -/
def startsWithSeq : Str → Str → Bool
  | [], _ => true
  | _ :: _, [] => false
  | a :: as, b :: bs => a = b && startsWithSeq as bs

/-- Python substring containment `sep in s` (for non-empty `sep`). -/
def hasSeq (sep : Str) : Str → Bool
  | [] => startsWithSeq sep []
  | s@(_ :: rest) => startsWithSeq sep s || hasSeq sep rest

/-- Locate the first occurrence of `sep` in `s`, returning the piece before
it and the remainder after it. -/
def breakSeq (sep : Str) : Str → Option (Str × Str)
  | [] => none
  | s@(c :: rest) =>
    if startsWithSeq sep s then some ([], s.drop sep.length)
    else
      match breakSeq sep rest with
      | some (pre, post) => some (c :: pre, post)
      | none => none

/-- Fuel-driven worker for `pySplitSeq`; the fuel bounds the number of
separator occurrences, `s.length + 1` always suffices for non-empty `sep`. -/
def splitSeqFuel (sep : Str) : Nat → Str → List Str
  | 0, s => [s]
  | fuel + 1, s =>
    match breakSeq sep s with
    | none => [s]
    | some (pre, post) => pre :: splitSeqFuel sep fuel post

/-- Python `str.split(sep)` for a multi-character separator such as `" - "`. -/
def pySplitSeq (s sep : Str) : List Str := splitSeqFuel sep (s.length + 1) s

/-- Characters removed by Python `str.strip()` (ASCII whitespace). -/
def isPySpace (c : Char) : Bool :=
  c = ' ' || c = '\t' || c = '\n' || c = '\r' || c = '\x0b' || c = '\x0c'

/-- Python `str.strip()`. -/
def pyStrip (s : Str) : Str :=
  ((s.dropWhile isPySpace).reverse.dropWhile isPySpace).reverse

/-- Value of a decimal digit character. -/
def decDigitVal (c : Char) : Nat := c.toNat - 48

/-- Python `int(s, 10)` on a string already known to consist of decimal
digits (the callers check `isdigit()` first). -/
def decToNat (s : Str) : Nat := s.foldl (fun a c => a * 10 + decDigitVal c) 0

/-- Membership in CPython's `_HEX_DIGITS` set. -/
def isHexDigitPy (c : Char) : Bool :=
  c.isDigit || ('a' ≤ c && c ≤ 'f') || ('A' ≤ c && c ≤ 'F')

/-- Value of a hexadecimal digit character (either case). -/
def hexDigitVal (c : Char) : Nat :=
  if c.isDigit then c.toNat - 48
  else if 'a' ≤ c && c ≤ 'f' then c.toNat - 87
  else c.toNat - 55

/-- Python `int(s, 16)` on a string of hex digits. -/
def hexToNat (s : Str) : Nat := s.foldl (fun a c => a * 16 + hexDigitVal c) 0

/-- Fuel-driven decimal rendering, most significant digit first. -/
def natToDecStrAux : Nat → Nat → Str
  | 0, _ => []
  | fuel + 1, n =>
    if n < 10 then [Nat.digitChar n]
    else natToDecStrAux fuel (n / 10) ++ [Nat.digitChar (n % 10)]

/-- Python `str(n)` for a natural number. -/
def natToDecStr (n : Nat) : Str := natToDecStrAux (n + 1) n

/-- Fuel-driven lowercase hexadecimal rendering (Python `'%x' % n`). -/
def natToHexStrAux : Nat → Nat → Str
  | 0, _ => []
  | fuel + 1, n =>
    if n < 16 then [Nat.digitChar n]
    else natToHexStrAux fuel (n / 16) ++ [Nat.digitChar (n % 16)]

/-- Python `'%x' % n`: lowercase hex, no padding. -/
def natToHexStr (n : Nat) : Str := natToHexStrAux (n + 1) n

/-- The two `ValueError` subclasses CPython's `ipaddress` module raises while
parsing, distinguished because `validate_prefix` catches only
`AddressValueError`.  `valueError` models a plain `ValueError` (raised by the
`strict=True` host-bits check, never reached by this program). -/
inductive PyErr where
  | addressValueError (msg : Str)
  | netmaskValueError (msg : Str)
  | valueError (msg : Str)
deriving DecidableEq

/-- CPython `IPv4Address._parse_octet` (`ValueError` is modelled as `none`):
non-empty, ASCII digits only, at most 3 characters, no leading zero, value
at most 255. -/
def parseOctet (s : Str) : Option Nat :=
  if s = [] then none
  else if ¬ s.all Char.isDigit then none
  else if s.length > 3 then none
  else if s ≠ ['0'] ∧ s.headD ' ' = '0' then none
  else
    let n := decToNat s
    if n > 255 then none else some n

/-- CPython `IPv4Address._ip_int_from_string`: split on `'.'`, expect exactly
4 octets, fold them big-endian.  Octet `ValueError`s are re-raised as
`AddressValueError`. -/
def ipv4IntFromString (s : Str) : Except PyErr Nat :=
  if s = [] then .error (.addressValueError "Address cannot be empty".data)
  else
    let octets := splitChar '.' s
    if octets.length ≠ 4 then .error (.addressValueError ("Expected 4 octets in ".data ++ s))
    else
      match octets.mapM parseOctet with
      | some [a, b, c, d] => .ok (((a * 256 + b) * 256 + c) * 256 + d)
      | _ => .error (.addressValueError ("invalid octet in ".data ++ s))

/-- CPython `IPv4Address.__init__` on a string: reject a `'/'`, then parse. -/
def parseIPv4Address (s : Str) : Except PyErr Nat :=
  if '/' ∈ s then .error (.addressValueError ("Unexpected slash in ".data ++ s))
  else ipv4IntFromString s

/-- CPython `_prefix_from_prefix_string` (parameterised by `_max_prefixlen`):
the string must be non-empty ASCII digits and denote a value at most
`maxLen`; otherwise `NetmaskValueError`. -/
def prefixFromPrefixString (maxLen : Nat) (s : Str) : Except PyErr Nat :=
  if s ≠ [] ∧ s.all Char.isDigit then
    let n := decToNat s
    if n ≤ maxLen then .ok n
    else .error (.netmaskValueError (s ++ " is not a valid netmask".data))
  else .error (.netmaskValueError (s ++ " is not a valid netmask".data))

/-- Fuel-driven count of trailing zero bits of a positive number. -/
def ctzFuel : Nat → Nat → Nat
  | 0, _ => 0
  | fuel + 1, n => if n % 2 = 1 ∨ n = 0 then 0 else ctzFuel fuel (n / 2) + 1

/-- CPython `_count_righthand_zero_bits`. -/
def countRighthandZeroBits (number bits : Nat) : Nat :=
  if number = 0 then bits else min bits (ctzFuel bits number)

/-- CPython `_prefix_from_ip_int`: recover a prefix length from a netmask
integer, raising a plain `ValueError` when zeroes and ones are mixed. -/
def prefixFromIpInt (maxLen ipInt : Nat) : Except PyErr Nat :=
  let tz := countRighthandZeroBits ipInt maxLen
  let plen := maxLen - tz
  if ipInt >>> tz = 2 ^ plen - 1 then .ok plen
  else .error (.valueError "netmask pattern mixes zeroes and ones".data)

/-- CPython `IPv4Network._prefix_from_ip_string`: interpret a dotted-quad
string as a netmask or a hostmask. -/
def prefixFromIpString (s : Str) : Except PyErr Nat :=
  match ipv4IntFromString s with
  | .error _ => .error (.netmaskValueError (s ++ " is not a valid netmask".data))
  | .ok ipInt =>
    match prefixFromIpInt 32 ipInt with
    | .ok p => .ok p
    | .error _ =>
      match prefixFromIpInt 32 (ipInt ^^^ (2 ^ 32 - 1)) with
      | .ok p => .ok p
      | .error _ => .error (.netmaskValueError (s ++ " is not a valid netmask".data))

/-- CPython `_ip_int_from_prefix`: the netmask integer of a prefix length,
`ALL_ONES ^ (ALL_ONES >> prefixlen)` over `total` bits. -/
def netmaskOfLen (total plen : Nat) : Nat :=
  (2 ^ total - 1) ^^^ ((2 ^ total - 1) >>> plen)

/-- CPython `IPv4Network._make_netmask` on a string argument: try the decimal
prefix-length form, fall back to the dotted netmask/hostmask form.  Returns
the `(netmask, prefixlen)` pair. -/
def makeNetmaskV4 (s : Str) : Except PyErr (Nat × Nat) :=
  match prefixFromPrefixString 32 s with
  | .ok plen => .ok (netmaskOfLen 32 plen, plen)
  | .error _ =>
    match prefixFromIpString s with
    | .ok plen => .ok (netmaskOfLen 32 plen, plen)
    | .error e => .error e

/-- CPython `IPv6Network._make_netmask` on a string: decimal prefix-length
form only. -/
def makeNetmaskV6 (s : Str) : Except PyErr (Nat × Nat) :=
  match prefixFromPrefixString 128 s with
  | .ok plen => .ok (netmaskOfLen 128 plen, plen)
  | .error e => .error e

/-- An IP network value: the (masked) network address integer and the prefix
length.  Both `IPv4Network` and `IPv6Network` share this shape, mirroring
CPython's `_BaseNetwork`; the address width is passed separately. -/
structure PyIPNetwork where
  networkAddress : Nat
  prefixlen : Nat
deriving DecidableEq

/-- CPython `hostmask`: `netmask ^ ALL_ONES` over `total` bits. -/
def hostmaskOfLen (total plen : Nat) : Nat :=
  netmaskOfLen total plen ^^^ (2 ^ total - 1)

/-- CPython `broadcast_address`: `network_address | hostmask`. -/
def broadcastAddr (total : Nat) (n : PyIPNetwork) : Nat :=
  n.networkAddress ||| hostmaskOfLen total n.prefixlen

/-- CPython `IPv4Network.__init__(s, strict)`: split an optional `/`, parse
the address, build the netmask, then either check (strict) or mask
(non-strict) the host bits. -/
def parseIPv4Network (s : Str) (strict : Bool) : Except PyErr PyIPNetwork :=
  let parts := splitChar '/' s
  if parts.length > 2 then .error (.addressValueError ("Only one slash permitted in ".data ++ s))
  else
    match parseIPv4Address (parts.headD []) with
    | .error e => .error e
    | .ok ip =>
      match (if parts.length = 2 then makeNetmaskV4 (parts.getD 1 []) else .ok (netmaskOfLen 32 32, 32)) with
      | .error e => .error e
      | .ok (mask, plen) =>
        if strict then
          if ip &&& mask ≠ ip then .error (.valueError (s ++ " has host bits set".data))
          else .ok ⟨ip, plen⟩
        else .ok ⟨ip &&& mask, plen⟩

/-- CPython `IPv6Address._parse_hextet`: hex digits only, at most 4
characters, non-empty (`int('', 16)` raises). -/
def parseHextet (s : Str) : Option Nat :=
  if ¬ s.all isHexDigitPy then none
  else if s.length > 4 then none
  else if s = [] then none
  else some (hexToNat s)

/-- Fold a list of hextet values into an address integer,
`ip_int = (ip_int << 16) | hextet` per element. -/
def foldHextets (init : Nat) (hs : List Nat) : Nat :=
  hs.foldl (fun acc h => (acc <<< 16) ||| h) init

/-- CPython `IPv6Address._ip_int_from_string`: split on `':'`, convert a
trailing dotted-quad into two hextets, locate the at-most-one `::`, validate
the leading/trailing colon rules and part counts, then fold the hextets with
the elided zero run in the middle.  Scope ids are handled by the caller. -/
def ipv6IntFromString (s : Str) : Except PyErr Nat :=
  if s = [] then .error (.addressValueError "Address cannot be empty".data)
  else
    let parts0 := splitChar ':' s
    if parts0.length < 3 then .error (.addressValueError ("At least 3 parts expected in ".data ++ s))
    else
      let withV4 : Except PyErr (List Str) :=
        if '.' ∈ (parts0.getLast?.getD []) then
          match ipv4IntFromString (parts0.getLast?.getD []) with
          | .ok v4 => .ok (parts0.dropLast ++ [natToHexStr ((v4 >>> 16) &&& 65535), natToHexStr (v4 &&& 65535)])
          | .error _ => .error (.addressValueError (s ++ " is not a valid IPv6 address".data))
        else .ok parts0
      match withV4 with
      | .error e => .error e
      | .ok parts =>
        if parts.length > 9 then .error (.addressValueError ("At most 8 colons permitted in ".data ++ s))
        else
          let interiorEmpties := (List.range parts.length).filter
            (fun i => 0 < i ∧ i + 1 < parts.length ∧ parts.getD i ['x'] = [])
          match interiorEmpties with
          | _ :: _ :: _ => .error (.addressValueError ("At most one double colon permitted in ".data ++ s))
          | [idx] =>
            let partsHi0 := idx
            let partsLo0 := parts.length - idx - 1
            if parts.headD ['x'] = [] ∧ partsHi0 - 1 ≠ 0 then
              .error (.addressValueError ("Leading colon only permitted as part of a double colon in ".data ++ s))
            else
              let partsHi := if parts.headD ['x'] = [] then partsHi0 - 1 else partsHi0
              if parts.getLast?.getD ['x'] = [] ∧ partsLo0 - 1 ≠ 0 then
                .error (.addressValueError ("Trailing colon only permitted as part of a double colon in ".data ++ s))
              else
                let partsLo := if parts.getLast?.getD ['x'] = [] then partsLo0 - 1 else partsLo0
                if 8 - (partsHi + partsLo) < 1 ∨ 8 < partsHi + partsLo then
                  .error (.addressValueError ("Expected at most 7 other parts with a double colon in ".data ++ s))
                else
                  let partsSkipped := 8 - (partsHi + partsLo)
                  match (parts.take partsHi).mapM parseHextet,
                        (parts.drop (parts.length - partsLo)).mapM parseHextet with
                  | some his, some los =>
                    .ok (foldHextets ((foldHextets 0 his) <<< (16 * partsSkipped)) los)
                  | _, _ => .error (.addressValueError (s ++ " has an invalid hextet".data))
          | [] =>
            if parts.length ≠ 8 then .error (.addressValueError ("Exactly 8 parts expected without a double colon in ".data ++ s))
            else if parts.headD ['x'] = [] then
              .error (.addressValueError ("Leading colon only permitted as part of a double colon in ".data ++ s))
            else if parts.getLast?.getD ['x'] = [] then
              .error (.addressValueError ("Trailing colon only permitted as part of a double colon in ".data ++ s))
            else
              match parts.mapM parseHextet with
              | some hs => .ok (foldHextets 0 hs)
              | none => .error (.addressValueError (s ++ " has an invalid hextet".data))

/-- CPython `IPv6Address.__init__` on a string: reject `'/'`, split off an
optional `%scope_id` (which must be non-empty and `%`-free), parse the rest.
The scope id itself is validated but not retained, as the script never uses
it. -/
def parseIPv6Address (s : Str) : Except PyErr Nat :=
  if '/' ∈ s then .error (.addressValueError ("Unexpected slash in ".data ++ s))
  else
    match breakSeq ['%'] s with
    | none => ipv6IntFromString s
    | some (addr, scope) =>
      if scope = [] ∨ '%' ∈ scope then .error (.addressValueError ("Invalid IPv6 address ".data ++ s))
      else ipv6IntFromString addr

/-- CPython `IPv6Network.__init__(s, strict)`. -/
def parseIPv6Network (s : Str) (strict : Bool) : Except PyErr PyIPNetwork :=
  let parts := splitChar '/' s
  if parts.length > 2 then .error (.addressValueError ("Only one slash permitted in ".data ++ s))
  else
    match parseIPv6Address (parts.headD []) with
    | .error e => .error e
    | .ok ip =>
      match (if parts.length = 2 then makeNetmaskV6 (parts.getD 1 []) else .ok (netmaskOfLen 128 128, 128)) with
      | .error e => .error e
      | .ok (mask, plen) =>
        if strict then
          if ip &&& mask ≠ ip then .error (.valueError (s ++ " has host bits set".data))
          else .ok ⟨ip, plen⟩
        else .ok ⟨ip &&& mask, plen⟩

/-- Python `str(IPv4Address)`: dotted decimal quad. -/
def ipv4ToStr (ip : Nat) : Str :=
  natToDecStr ((ip >>> 24) % 256) ++ '.' :: natToDecStr ((ip >>> 16) % 256)
    ++ '.' :: natToDecStr ((ip >>> 8) % 256) ++ '.' :: natToDecStr (ip % 256)

/-- The eight 16-bit hextet values of an IPv6 address integer. -/
def hextetsOf (ip : Nat) : List Nat :=
  (List.range 8).map (fun i => (ip >>> (16 * (7 - i))) % 65536)

/-- The best (leftmost-longest) run of `"0"` hextets, as `(start, length)`,
mirroring the scan in CPython `_compress_hextets`. -/
def bestZeroRun (hxs : List Str) : Nat × Nat :=
  let step := fun (st : Nat × Nat × Nat × Nat) (p : Nat × Str) =>
    let (bs, bl, cs, cl) := st
    if p.2 = ['0'] then
      let cs' := if cl = 0 then p.1 else cs
      let cl' := cl + 1
      if cl' > bl then (cs', cl', cs', cl') else (bs, bl, cs', cl')
    else (bs, bl, 0, 0)
  let r := ((List.range hxs.length).zip hxs).foldl step (0, 0, 0, 0)
  (r.1, r.2.1)

/-- CPython `IPv6Address._compress_hextets`: replace the best zero run of
length at least 2 by an empty piece, adding empty pieces at the ends so the
join produces `::`. -/
def compressHextets (hxs : List Str) : List Str :=
  let (bs, bl) := bestZeroRun hxs
  if bl > 1 then
    let be := bs + bl
    let hxs1 := if be = hxs.length then hxs ++ [[]] else hxs
    let hxs2 := hxs1.take bs ++ [[]] ++ hxs1.drop be
    if bs = 0 then [] :: hxs2 else hxs2
  else hxs

/-- `':'.join`. -/
def joinColon : List Str → Str
  | [] => []
  | [x] => x
  | x :: xs => x ++ ':' :: joinColon xs

/-- Python `str(IPv6Address)`: compressed lowercase hexadecimal form. -/
def ipv6ToStr (ip : Nat) : Str :=
  joinColon (compressHextets ((hextetsOf ip).map natToHexStr))

/-- Python `str(IPv6Network)`: `<address>/<prefixlen>`. -/
def ipv6NetworkToStr (n : PyIPNetwork) : Str :=
  ipv6ToStr n.networkAddress ++ '/' :: natToDecStr n.prefixlen

/-- JSON values as delivered by `response.json()`: the shapes the script
manipulates (strings, arrays, objects, `null`).  Objects are ordered
association lists with the keys produced by the JSON parser. -/
inductive JVal where
  | null : JVal
  | str : Str → JVal
  | arr : List JVal → JVal
  | obj : List (Str × JVal) → JVal

/-- Lookup in a JSON object / Python dict (first matching key). -/
def jGet : List (Str × JVal) → Str → Option JVal
  | [], _ => none
  | (k', v) :: rest, k => if k = k' then some v else jGet rest k

/-- Python `k in v` for a string `k`: key test on a dict, substring test on a
string, membership test on a list (string equality only — a deep value can
never equal a `str`), `TypeError` (modelled `none`) otherwise. -/
def pyContains (v : JVal) (k : Str) : Option Bool :=
  match v with
  | .obj d => some (jGet d k).isSome
  | .str s => some (hasSeq k s)
  | .arr xs => some (xs.any (fun x => match x with | .str s => s = k | _ => false))
  | .null => none

/-- Python `v[k]` for a string key `k`: dict lookup (`KeyError` and
`TypeError` both modelled `none`). -/
def pySubscript (v : JVal) (k : Str) : Option JVal :=
  match v with
  | .obj d => jGet d k
  | _ => none

/-- Python `v[0]`: list head, single-character string head, otherwise
`IndexError`/`KeyError`/`TypeError` (`none`). -/
def pyIndexZero (v : JVal) : Option JVal :=
  match v with
  | .arr (x :: _) => some x
  | .str (c :: _) => some (.str [c])
  | _ => none

mutual

/-- Python `==` between JSON values, with dict comparison order-insensitive
(same length, every key present on the other side with an equal value) as in
Python. -/
def pyEq : JVal → JVal → Bool
  | .null, .null => true
  | .str x, .str y => x = y
  | .arr xs, .arr ys => pyEqList xs ys
  | .obj xs, .obj ys => xs.length = ys.length && pyEqObj xs ys
  | _, _ => false

/-- Elementwise Python `==` of two JSON arrays. -/
def pyEqList : List JVal → List JVal → Bool
  | [], [] => true
  | x :: xs, y :: ys => pyEq x y && pyEqList xs ys
  | _, _ => false

/-- Every key/value pair of the first object matched in the second. -/
def pyEqObj : List (Str × JVal) → List (Str × JVal) → Bool
  | [], _ => true
  | (k, v) :: rest, ys =>
    (match jGet ys k with
     | some w => pyEq v w
     | none => false) && pyEqObj rest ys

end

/-- Python `==` where either side may be `None` (`dict.get` misses). -/
def optPyEq : Option JVal → Option JVal → Bool
  | none, none => true
  | some a, some b => pyEq a b
  | _, _ => false

/-- A canonical record: the Python dict built by the extractor, an ordered
association list from field name to value. -/
abbrev Record := List (Str × JVal)

/-- Lookup in a record (`record.get(k)` / `k in record`). -/
def recGet : Record → Str → Option JVal
  | [], _ => none
  | (k', v) :: rest, k => if k = k' then some v else recGet rest k

/-- Python `record[k] = v`: update in place if the key exists, else append. -/
def recSet : Record → Str → JVal → Record
  | [], k, v => [(k, v)]
  | (k', v') :: rest, k, v =>
    if k = k' then (k', v) :: rest else (k', v') :: recSet rest k v

/-- The recognized field set of `_extract_record_from_object`
(line 287 of `ripe_inetnum_query.py`). -/
def recognizedFields : List Str :=
  ["netname".data, "descr".data, "country".data, "org".data, "admin-c".data,
   "tech-c".data, "status".data, "mnt-by".data, "created".data, "last-modified".data]

/-- One iteration of the attribute loop (lines 283-295): merge a
`name`/`value` pair into the record.  A repeated recognized field is upgraded
from a single value to a two-element list, then appended to. -/
def mergeAttr (record : Record) (name value : JVal) : Record :=
  match name with
  | .str s =>
    if s ∈ recognizedFields then
      match recGet record s with
      | some (.arr xs) => recSet record s (.arr (xs ++ [value]))
      | some old => recSet record s (.arr [old, value])
      | none => recSet record s value
    else record
  | _ => record

/-- The attribute loop itself: a non-dict attribute raises `AttributeError`
at `attr.get`, discarding the whole record (`none`). -/
def processAttrs : List JVal → Record → Option Record
  | [], record => some record
  | attr :: rest, record =>
    match attr with
    | .obj ad =>
      processAttrs rest
        (mergeAttr record ((jGet ad "name".data).getD (.str "".data))
          ((jGet ad "value".data).getD (.str "".data)))
    | _ => none

/-- Lines 271-275: `obj['primary-key']['attribute'][0]['value']` guarded by
`'primary-key' in obj and 'attribute' in obj['primary-key']`; every missing
key, empty list or wrongly-typed step yields `none`. -/
def primaryKeyValue (obj : JVal) : Option JVal :=
  match obj with
  | .obj d =>
    match jGet d "primary-key".data with
    | some pk =>
      match pyContains pk "attribute".data with
      | some true => ((pySubscript pk "attribute".data).bind pyIndexZero).bind
          (fun first => pySubscript first "value".data)
      | _ => none
    | none => none
  | _ => none

/-- The registry returns either a bare object or a list of objects
(lines 280-281 and 196-197): normalize to a list. -/
def normalizeToList (v : JVal) : List JVal :=
  match v with
  | .arr l => l
  | other => [other]

/-- `_extract_record_from_object` (lines 260-300): type-tag check, primary
key, attribute merge; any structural failure discards the whole record. -/
def extractRecordFromObject (obj : JVal) : Option Record :=
  match obj with
  | .obj d =>
    match jGet d "type".data with
    | some (.str t) =>
      if t = "inetnum".data ∨ t = "inet6num".data then
        match primaryKeyValue obj with
        | some pkv =>
          let record : Record := [("inetnum".data, pkv)]
          match jGet d "attributes".data with
          | some ac =>
            match pyContains ac "attribute".data with
            | some true =>
              match pySubscript ac "attribute".data with
              | some av => processAttrs (normalizeToList av) record
              | none => none
            | some false => some record
            | none => none
          | none => some record
        | none => none
      else none
    | _ => none
  | _ => none

/-- The duplicate test of lines 203 and 255:
`existing.get('inetnum') == record.get('inetnum')`. -/
def inetnumMatches (record existing : Record) : Bool :=
  optPyEq (recGet existing "inetnum".data) (recGet record "inetnum".data)

/-- Lines 202-204: append the record unless some existing record has an
equal `inetnum` value. -/
def dedupAppend (results : List Record) (record : Record) : List Record :=
  if results.any (inetnumMatches record) then results else results ++ [record]

/-- The body of the loop of lines 199-206: extract, test Python truthiness
(`if record:`), dedup-append. -/
def processObjectStep (acc : List Record) (obj : JVal) : List Record :=
  match extractRecordFromObject obj with
  | some record => if record.isEmpty then acc else dedupAppend acc record
  | none => acc

/-- `_process_all_objects` (lines 189-206).  `none` models an exception
escaping this function (a `TypeError` while testing or subscripting the
response envelope); such an exception can only occur before any record is
appended, so the caller's `results` are unchanged in that case. -/
def processAllObjects (data : JVal) (results : List Record) : Option (List Record) :=
  match pyContains data "objects".data with
  | none => none
  | some false => some results
  | some true =>
    match pySubscript data "objects".data with
    | none => none
    | some objsVal =>
      match pyContains objsVal "object".data with
      | none => none
      | some false => some results
      | some true =>
        match pySubscript objsVal "object".data with
        | none => none
        | some objectVal => some ((normalizeToList objectVal).foldl processObjectStep results)

/-- The observable outcome of one `_query_range` call: the updated result
list and the seconds slept. -/
structure QueryOutcome where
  results : List Record
  sleepSeconds : Nat

/-- What the HTTP round trip produced: a transport-level exception, or a
status code with a body that either parses as JSON or does not
(`response.json()` raising). -/
inductive ApiResponse where
  | transportError : ApiResponse
  | response (status : Nat) (body : Option JVal) : ApiResponse

/-- `_query_range` (lines 130-187), with the HTTP outcome passed in: 429
sleeps 5 seconds and returns, 404 returns, any other non-200 returns, a JSON
parse failure is caught by the enclosing `try`, and a 200 body is processed;
every exception is caught, so the caller always receives a result. -/
def queryRange (resp : ApiResponse) (results : List Record) : QueryOutcome :=
  match resp with
  | .transportError => ⟨results, 0⟩
  | .response status body =>
    if status = 429 then ⟨results, 5⟩
    else if status = 404 then ⟨results, 0⟩
    else if status ≠ 200 then ⟨results, 0⟩
    else
      match body with
      | none => ⟨results, 0⟩
      | some data =>
        match processAllObjects data results with
        | some newResults => ⟨newResults, 0⟩
        | none => ⟨results, 0⟩

/-- A validated prefix: the version tag with the network value, as returned
by `validate_prefix`. -/
inductive IPNetwork where
  | v4 (n : PyIPNetwork)
  | v6 (n : PyIPNetwork)
deriving DecidableEq

/-- How `validate_prefix` can fail: `invalidPrefixErr` is the wrapped
`AddressValueError` it raises itself (carrying the original string and the
underlying reason); `uncaught` is an exception of another class
(`NetmaskValueError`) escaping the function, since its `except` clauses
catch only `AddressValueError`. -/
inductive ValidateErr where
  | invalidPrefixErr (orig : Str) (reason : Str)
  | uncaught (e : PyErr)
deriving DecidableEq

/-- `validate_prefix` (lines 379-400): try IPv4 non-strict, on
`AddressValueError` try IPv6 non-strict, on a second `AddressValueError`
raise the wrapping error. -/
def validatePrefixStr (s : Str) : Except ValidateErr IPNetwork :=
  match parseIPv4Network s false with
  | .ok n => .ok (.v4 n)
  | .error (.addressValueError _) =>
    match parseIPv6Network s false with
    | .ok n => .ok (.v6 n)
    | .error (.addressValueError m) => .error (.invalidPrefixErr s m)
    | .error e => .error (.uncaught e)
  | .error e => .error (.uncaught e)

/-- Is the validation failure the wrapped `Invalid IP prefix` error raised
at line 400? -/
def isWrappedErr : Except ValidateErr IPNetwork → Bool
  | .error (.invalidPrefixErr _ _) => true
  | _ => false

/-- `main`'s handling of a validation failure (lines 545-553): both the
`AddressValueError` handler and the generic handler exit with code 1. -/
def mainValidateOutcome (s : Str) : Except Nat IPNetwork :=
  match validatePrefixStr s with
  | .ok n => .ok n
  | .error _ => .error 1

/-- `_search_with_simple_api`, query-construction part (lines 64-76): an
IPv4 prefix becomes the range string `"<network> - <broadcast>"` with object
type `inetnum`; an IPv6 prefix becomes its CIDR string with object type
`inet6num`. -/
def buildRangeQuery : IPNetwork → Str × Str
  | .v4 p => (ipv4ToStr p.networkAddress ++ " - ".data ++ ipv4ToStr (broadcastAddr 32 p), "inetnum".data)
  | .v6 p => (ipv6NetworkToStr p, "inet6num".data)

/-- CPython `_BaseNetwork.__contains__` for an address of the same version:
`address & netmask == network_address`. -/
def containsAddrN (total : Nat) (n : PyIPNetwork) (x : Nat) : Bool :=
  x &&& netmaskOfLen total n.prefixlen = n.networkAddress

/-- CPython `_BaseNetwork.overlaps`: membership of either endpoint of one
network in the other. -/
def overlapsN (total : Nat) (a b : PyIPNetwork) : Bool :=
  containsAddrN total b a.networkAddress || containsAddrN total b (broadcastAddr total a)
    || containsAddrN total a b.networkAddress || containsAddrN total a (broadcastAddr total b)

/-- `_record_in_prefix` (lines 302-336) acting on the `inetnum` string: the
IPv4 branch takes the `"start - end"` path when the string contains
`" - "` (unpack and address errors yield `False`), otherwise the CIDR path;
the IPv6 branch always parses CIDR.  Every `ValueError` — including
`AddressValueError` and `NetmaskValueError` — is caught and yields
`False`. -/
def recordInPrefixStr (inetnumStr : Str) (target : IPNetwork) : Bool :=
  match target with
  | .v4 p =>
    if hasSeq " - ".data inetnumStr then
      match pySplitSeq inetnumStr " - ".data with
      | [startStr, endStr] =>
        match parseIPv4Address (pyStrip startStr), parseIPv4Address (pyStrip endStr) with
        | .ok startIp, .ok endIp =>
          ¬ (endIp < p.networkAddress ∨ startIp > broadcastAddr 32 p)
        | _, _ => false
      | _ => false
    else
      match parseIPv4Network inetnumStr false with
      | .ok network => overlapsN 32 network p
      | .error _ => false
  | .v6 p =>
    match parseIPv6Network inetnumStr false with
    | .ok network => overlapsN 128 network p
    | .error _ => false

/-- `_record_in_prefix` on a record, starting from
`record.get('inetnum', '')`.  A string value goes through
`recordInPrefixStr`.  A degenerate non-string value behaves as Python does:
with an IPv4 target, `' - ' in None` raises an uncaught `TypeError`
(`none`), while `' - ' in <list or dict>` is a membership test — a hit
crashes at the following `.split` with an uncaught `AttributeError`
(`none`), a miss falls through to `IPv4Network(str(value))`, which never
parses a `repr` of a list or dict, so the `AddressValueError` is caught and
the record excluded; with an IPv6 target every non-string value reaches
`IPv6Network(str(value))` and is likewise excluded. -/
def recordInPrefixCheck (record : Record) (target : IPNetwork) : Option Bool :=
  match (recGet record "inetnum".data).getD (.str "".data), target with
  | .str s, _ => some (recordInPrefixStr s target)
  | .null, .v4 _ => none
  | _, .v6 _ => some false
  | v, .v4 _ =>
    match pyContains v " - ".data with
    | some true => none
    | _ => some false

/-- An attribute object `{"name": n, "value": v}` as the registry sends it. -/
def mkAttr (n v : Str) : JVal :=
  .obj [("name".data, .str n), ("value".data, .str v)]

/-- A raw registry object in the wire shape consumed by the extractor: a
type tag, a primary key holding one value, and an attribute list. -/
def mkRawObject (ty : Str) (pkv : JVal) (attrs : List JVal) : JVal :=
  .obj [("type".data, .str ty),
        ("primary-key".data, .obj [("attribute".data, .arr [.obj [("value".data, pkv)]])]),
        ("attributes".data, .obj [("attribute".data, .arr attrs)])]

/-- A search response envelope `{"objects": {"object": [...]}}`. -/
def mkObjectsResponse (objs : List JVal) : JVal :=
  .obj [("objects".data, .obj [("object".data, .arr objs)])]

/-- The values carried by the attributes named `f` in an attribute list, in
source order (taking the same `.get` defaults as the extractor loop). -/
def valuesOf : List JVal → Str → List JVal
  | [], _ => []
  | attr :: rest, f =>
    match attr with
    | .obj ad =>
      match (jGet ad "name".data).getD (.str "".data) with
      | .str s =>
        if s = f then ((jGet ad "value".data).getD (.str "".data)) :: valuesOf rest f
        else valuesOf rest f
      | _ => valuesOf rest f
    | _ => valuesOf rest f

/-- The successive merge of a stream of values into one record field:
absent, then single, then a growing list. -/
def mergeInto : Option JVal → List JVal → Option JVal
  | st, [] => st
  | st, v :: vs =>
    match st with
    | none => mergeInto (some v) vs
    | some (.arr xs) => mergeInto (some (.arr (xs ++ [v]))) vs
    | some old => mergeInto (some (.arr [old, v])) vs

/-- The expected shape of a recognized field fed `vs` string occurrences:
absent, single value, or ordered list. -/
def mergedField (vs : List Str) : Option JVal :=
  match vs with
  | [] => none
  | [v] => some (.str v)
  | _ => some (.arr (vs.map JVal.str))

/-- The object's type tag as the extractor reads it: `obj.get('type')`,
kept only when it is a string. -/
def typeTagOf (obj : JVal) : Option Str :=
  match obj with
  | .obj d =>
    match jGet d "type".data with
    | some (.str t) => some t
    | _ => none
  | _ => none

/-- The uniqueness invariant of the result list: no earlier record's
`inetnum` value is Python-equal to a later one's. -/
def UniqueByInetnum (results : List Record) : Prop :=
  results.Pairwise (fun a b => inetnumMatches b a = false)

/-- Address `x` lies in the address range of network `n`
(`network_address <= x <= broadcast_address`). -/
def inRangeN (total : Nat) (n : PyIPNetwork) (x : Nat) : Prop :=
  n.networkAddress ≤ x ∧ x ≤ broadcastAddr total n

/-- A well-formed network value as produced by non-strict parsing: prefix
length within the address width, address within the space, host bits
cleared. -/
def IsNormalizedNet (total : Nat) (n : PyIPNetwork) : Prop :=
  n.prefixlen ≤ total ∧ n.networkAddress < 2 ^ total ∧
    n.networkAddress % 2 ^ (total - n.prefixlen) = 0

/-- Arithmetic form of shifting an all-ones word right. -/
theorem shiftRight_all_ones {t p : Nat} (h : p ≤ t) :
    (2 ^ t - 1) >>> p = 2 ^ (t - p) - 1 := by
  rw [Nat.shiftRight_eq_div_pow]
  have hsplit : 2 ^ t - 1 = 2 ^ p * (2 ^ (t - p) - 1) + (2 ^ p - 1) := by
    have h1 : 2 ^ p * 2 ^ (t - p) = 2 ^ t := by
      rw [← pow_add]; congr 1; omega
    have h2 : 2 ^ p * (2 ^ (t - p) - 1) = 2 ^ t - 2 ^ p := by
      rw [Nat.mul_sub, h1, Nat.mul_one]
    have hp := Nat.two_pow_pos p
    have ht := Nat.two_pow_pos t
    have hle : 2 ^ p ≤ 2 ^ t := Nat.pow_le_pow_right (by norm_num) h
    omega
  rw [hsplit, Nat.mul_add_div (Nat.two_pow_pos p),
    Nat.div_eq_of_lt (by have := Nat.two_pow_pos p; omega), Nat.add_zero]

/-- The hostmask of a prefix length is the all-ones host part. -/
theorem hostmask_eq {t p : Nat} (h : p ≤ t) :
    hostmaskOfLen t p = 2 ^ (t - p) - 1 := by
  unfold hostmaskOfLen netmaskOfLen
  rw [Nat.xor_comm ((2 ^ t - 1) ^^^ ((2 ^ t - 1) >>> p)) (2 ^ t - 1),
    ← Nat.xor_assoc, Nat.xor_self, Nat.zero_xor, shiftRight_all_ones h]

/-- Bit characterisation of the netmask. -/
theorem testBit_netmask {t p : Nat} (h : p ≤ t) (i : Nat) :
    (netmaskOfLen t p).testBit i = decide (t - p ≤ i ∧ i < t) := by
  unfold netmaskOfLen
  rw [Nat.testBit_xor, shiftRight_all_ones h, Nat.testBit_two_pow_sub_one,
    Nat.testBit_two_pow_sub_one]
  by_cases h1 : i < t - p <;> by_cases h2 : i < t
  all_goals simp [h1, h2]
  all_goals omega

/-- The netmask fits in the address width. -/
theorem netmask_lt (t p : Nat) : netmaskOfLen t p < 2 ^ t := by
  unfold netmaskOfLen
  have h1 : 2 ^ t - 1 < 2 ^ t := by have := Nat.two_pow_pos t; omega
  exact Nat.xor_lt_two_pow h1
    (Nat.lt_of_le_of_lt (by rw [Nat.shiftRight_eq_div_pow]; exact Nat.div_le_self _ _) h1)

/-- Masking with the netmask clears the host bits. -/
theorem land_netmask_mod (x : Nat) {t p : Nat} (h : p ≤ t) :
    (x &&& netmaskOfLen t p) % 2 ^ (t - p) = 0 := by
  apply Nat.eq_of_testBit_eq
  intro i
  rw [Nat.testBit_mod_two_pow, Nat.zero_testBit, Nat.testBit_land, testBit_netmask h]
  by_cases h1 : i < t - p
  all_goals simp [h1]
  all_goals omega

/-- A masked value fits in the address width. -/
theorem land_netmask_lt (x : Nat) (t p : Nat) :
    x &&& netmaskOfLen t p < 2 ^ t :=
  Nat.lt_of_le_of_lt Nat.and_le_right (netmask_lt t p)

/-- Bits of `2^k * q + y` for `y < 2^k`: low bits from `y`, high bits
from `q`. -/
theorem testBit_two_pow_mul_add' {k q y : Nat} (hy : y < 2 ^ k) (i : Nat) :
    (2 ^ k * q + y).testBit i =
      if i < k then y.testBit i else q.testBit (i - k) := by
  by_cases hik : i < k
  · simp only [hik, if_true]
    rw [Nat.testBit_to_div_mod, Nat.testBit_to_div_mod]
    have hk : (2 : Nat) ^ k = 2 ^ i * 2 ^ (k - i) := by rw [← pow_add]; congr 1; omega
    have hdiv : (2 ^ k * q + y) / 2 ^ i = 2 ^ (k - i) * q + y / 2 ^ i := by
      have hrw : 2 ^ k * q = 2 ^ (k - i) * q * 2 ^ i := by rw [hk]; ring
      rw [hrw, Nat.add_comm, Nat.add_mul_div_right _ _ (Nat.two_pow_pos i), Nat.add_comm]
    rw [hdiv]
    have hki : 1 ≤ k - i := by omega
    have hsplit : 2 ^ (k - i) * q = 2 * (2 ^ (k - i - 1) * q) := by
      rw [← Nat.mul_assoc, ← pow_succ']
      congr 2
      omega
    rw [hsplit, Nat.add_comm, Nat.add_mul_mod_self_left]
  · simp only [hik, if_false]
    rw [Nat.testBit_to_div_mod, Nat.testBit_to_div_mod]
    have hi : (2 : Nat) ^ i = 2 ^ k * 2 ^ (i - k) := by rw [← pow_add]; congr 1; omega
    have hdiv : (2 ^ k * q + y) / 2 ^ i = q / 2 ^ (i - k) := by
      rw [hi, ← Nat.div_div_eq_div_mul, Nat.mul_comm (2 ^ k) q, Nat.add_comm,
        Nat.add_mul_div_right _ _ (Nat.two_pow_pos k), Nat.div_eq_of_lt hy,
        Nat.zero_add]
    rw [hdiv]

/-- Bitwise or of values occupying disjoint bit ranges is addition. -/
theorem lor_disjoint_eq_add {x y k : Nat} (hx : x % 2 ^ k = 0) (hy : y < 2 ^ k) :
    x ||| y = x + y := by
  obtain ⟨q, hq⟩ := Nat.dvd_of_mod_eq_zero hx
  subst hq
  apply Nat.eq_of_testBit_eq
  intro i
  rw [Nat.testBit_lor, testBit_two_pow_mul_add' hy i]
  have hx0 : (2 ^ k * q).testBit i = if i < k then false else q.testBit (i - k) := by
    have h0 : (0 : Nat) < 2 ^ k := Nat.two_pow_pos k
    have h := testBit_two_pow_mul_add' (q := q) h0 i
    simpa using h
  rw [hx0]
  by_cases hik : i < k
  · simp [hik]
  · have hyf : y.testBit i = false :=
      Nat.testBit_eq_false_of_lt
        (Nat.lt_of_lt_of_le hy (Nat.pow_le_pow_right (by norm_num) (by omega)))
    simp [hik, hyf]

/-- The broadcast address of a normalized network in arithmetic form. -/
theorem broadcast_eq {t : Nat} {n : PyIPNetwork} (h : IsNormalizedNet t n) :
    broadcastAddr t n = n.networkAddress + (2 ^ (t - n.prefixlen) - 1) := by
  obtain ⟨hp, hlt, hmod⟩ := h
  unfold broadcastAddr
  rw [hostmask_eq hp]
  exact lor_disjoint_eq_add hmod (by have := Nat.two_pow_pos (t - n.prefixlen); omega)

/-- The network address never exceeds the broadcast address. -/
theorem networkAddress_le_broadcast {t : Nat} {n : PyIPNetwork}
    (h : IsNormalizedNet t n) : n.networkAddress ≤ broadcastAddr t n := by
  rw [broadcast_eq h]; omega

/-- The broadcast address fits in the address width. -/
theorem broadcast_lt {t : Nat} {n : PyIPNetwork} (h : IsNormalizedNet t n) :
    broadcastAddr t n < 2 ^ t := by
  obtain ⟨hp, hlt, hmod⟩ := h
  rw [broadcast_eq ⟨hp, hlt, hmod⟩]
  obtain ⟨q, hq⟩ := Nat.dvd_of_mod_eq_zero hmod
  have hh := Nat.two_pow_pos (t - n.prefixlen)
  have hsplit : (2 : Nat) ^ t = 2 ^ (t - n.prefixlen) * 2 ^ n.prefixlen := by
    rw [← pow_add]; congr 1; omega
  have hqlt : q < 2 ^ n.prefixlen := by
    by_contra hc
    push_neg at hc
    have h2 : 2 ^ (t - n.prefixlen) * 2 ^ n.prefixlen ≤ 2 ^ (t - n.prefixlen) * q :=
      Nat.mul_le_mul_left _ hc
    omega
  have key : 2 ^ (t - n.prefixlen) * q + 2 ^ (t - n.prefixlen)
      ≤ 2 ^ (t - n.prefixlen) * 2 ^ n.prefixlen := by
    calc 2 ^ (t - n.prefixlen) * q + 2 ^ (t - n.prefixlen)
        = 2 ^ (t - n.prefixlen) * (q + 1) := by ring
      _ ≤ 2 ^ (t - n.prefixlen) * 2 ^ n.prefixlen := Nat.mul_le_mul_left _ hqlt
  omega

/-- Masking a value of the address space keeps exactly its network part. -/
theorem land_netmask_eq_div_mul {x t p : Nat} (hx : x < 2 ^ t) (hp : p ≤ t) :
    x &&& netmaskOfLen t p = x / 2 ^ (t - p) * 2 ^ (t - p) := by
  have hsl : x / 2 ^ (t - p) * 2 ^ (t - p) = (x >>> (t - p)) <<< (t - p) := by
    rw [Nat.shiftRight_eq_div_pow, Nat.shiftLeft_eq]
  rw [hsl]
  apply Nat.eq_of_testBit_eq
  intro i
  rw [Nat.testBit_land, testBit_netmask hp, Nat.testBit_shiftLeft,
    Nat.testBit_shiftRight]
  by_cases h1 : i < t - p
  · have h2 : ¬ i ≥ t - p := by omega
    have h3 : ¬ (t - p ≤ i ∧ i < t) := by omega
    simp [h2, h3]
  · by_cases h2 : i < t
    · have hge : i ≥ t - p := by omega
      have heq : t - p + (i - (t - p)) = i := by omega
      have h3 : (t - p ≤ i ∧ i < t) := by omega
      simp [hge, heq, h3]
    · have hxf : x.testBit i = false :=
        Nat.testBit_eq_false_of_lt
          (Nat.lt_of_lt_of_le hx (Nat.pow_le_pow_right (by norm_num) (by omega)))
      have hge : i ≥ t - p := by omega
      have heq : t - p + (i - (t - p)) = i := by omega
      have h3 : ¬ (t - p ≤ i ∧ i < t) := by omega
      simp [hge, heq, h3, hxf]

/-- For a normalized network and an in-space address, CPython's
mask-equality containment test agrees with the range test. -/
theorem containsAddr_iff {t : Nat} {n : PyIPNetwork} (hn : IsNormalizedNet t n)
    {x : Nat} (hx : x < 2 ^ t) :
    containsAddrN t n x = true ↔ inRangeN t n x := by
  obtain ⟨hp, hlt, hmod⟩ := hn
  obtain ⟨q, hq⟩ := Nat.dvd_of_mod_eq_zero hmod
  unfold containsAddrN inRangeN
  rw [broadcast_eq ⟨hp, hlt, hmod⟩, land_netmask_eq_div_mul hx hp, decide_eq_true_eq]
  have hh := Nat.two_pow_pos (t - n.prefixlen)
  have hdm := Nat.div_add_mod x (2 ^ (t - n.prefixlen))
  have hml := Nat.mod_lt x hh
  have hcomm : 2 ^ (t - n.prefixlen) * (x / 2 ^ (t - n.prefixlen))
      = x / 2 ^ (t - n.prefixlen) * 2 ^ (t - n.prefixlen) := Nat.mul_comm _ _
  have hqcomm : 2 ^ (t - n.prefixlen) * q = q * 2 ^ (t - n.prefixlen) := Nat.mul_comm _ _
  constructor
  · intro h
    omega
  · intro ⟨h1, h2⟩
    have hlo : q ≤ x / 2 ^ (t - n.prefixlen) :=
      (Nat.le_div_iff_mul_le hh).mpr (by omega)
    have hq1 : (q + 1) * 2 ^ (t - n.prefixlen)
        = 2 ^ (t - n.prefixlen) * q + 2 ^ (t - n.prefixlen) := by ring
    have hhi : x / 2 ^ (t - n.prefixlen) < q + 1 :=
      (Nat.div_lt_iff_lt_mul hh).mpr (by omega)
    have hdiv : x / 2 ^ (t - n.prefixlen) = q := by omega
    rw [hdiv, hq, Nat.mul_comm]

/-- CPython's `overlaps` test holds exactly when the two normalized networks
share at least one address. -/
theorem overlaps_iff {t : Nat} {a b : PyIPNetwork}
    (ha : IsNormalizedNet t a) (hb : IsNormalizedNet t b) :
    overlapsN t a b = true ↔ ∃ x, inRangeN t a x ∧ inRangeN t b x := by
  unfold overlapsN
  simp only [Bool.or_eq_true]
  constructor
  · intro h
    rcases h with ((h | h) | h) | h
    · exact ⟨a.networkAddress,
        ⟨Nat.le_refl _, networkAddress_le_broadcast ha⟩,
        (containsAddr_iff hb ha.2.1).mp h⟩
    · exact ⟨broadcastAddr t a,
        ⟨networkAddress_le_broadcast ha, Nat.le_refl _⟩,
        (containsAddr_iff hb (broadcast_lt ha)).mp h⟩
    · exact ⟨b.networkAddress,
        (containsAddr_iff ha hb.2.1).mp h,
        ⟨Nat.le_refl _, networkAddress_le_broadcast hb⟩⟩
    · exact ⟨broadcastAddr t b,
        (containsAddr_iff ha (broadcast_lt hb)).mp h,
        ⟨networkAddress_le_broadcast hb, Nat.le_refl _⟩⟩
  · intro ⟨x, hxa, hxb⟩
    by_cases hc : a.networkAddress ≤ b.networkAddress
    · refine Or.inl (Or.inr ?_)
      exact (containsAddr_iff ha hb.2.1).mpr ⟨hc, Nat.le_trans hxb.1 hxa.2⟩
    · refine Or.inl (Or.inl (Or.inl ?_))
      exact (containsAddr_iff hb ha.2.1).mpr ⟨by omega, Nat.le_trans hxa.1 hxb.2⟩


/-- Unfolding equation for `splitChar` on a cons cell. -/
theorem splitChar_cons (c a : Char) (rest : Str) :
    splitChar c (a :: rest) =
      match splitChar c rest with
      | h :: t => if a = c then [] :: h :: t else (a :: h) :: t
      | [] => [[a]] := rfl

/-- `splitChar` never returns an empty list of pieces. -/
theorem splitChar_ne_nil (c : Char) : ∀ (s : Str), splitChar c s ≠ [] := by
  intro s
  cases s with
  | nil => simp [splitChar]
  | cons a rest =>
    rw [splitChar_cons]
    cases h : splitChar c rest with
    | nil => simp
    | cons h t =>
      simp only []
      split
      · simp
      · simp

/-- Splitting a string that does not contain the separator character. -/
theorem splitChar_not_mem {c : Char} : ∀ {s : Str}, c ∉ s → splitChar c s = [s] := by
  intro s
  induction s with
  | nil => intro _; rfl
  | cons a rest ih =>
    intro h
    have hac : a ≠ c := fun hc => h (hc ▸ List.mem_cons_self a rest)
    have hrest : c ∉ rest := fun hc => h (List.mem_cons_of_mem a hc)
    rw [splitChar_cons, ih hrest]
    simp [hac]

/-- Splitting around a single separator occurrence. -/
theorem splitChar_append {c : Char} : ∀ {a : Str}, c ∉ a → ∀ (b : Str),
    splitChar c (a ++ c :: b) = a :: splitChar c b := by
  intro a
  induction a with
  | nil =>
    intro _ b
    show splitChar c (c :: b) = [] :: splitChar c b
    rw [splitChar_cons]
    cases hsp : splitChar c b with
    | nil => exact absurd hsp (splitChar_ne_nil c b)
    | cons h t => simp
  | cons x rest ih =>
    intro h b
    have hxc : x ≠ c := fun hc => h (hc ▸ List.mem_cons_self x rest)
    have hrest : c ∉ rest := fun hc => h (List.mem_cons_of_mem x hc)
    show splitChar c (x :: (rest ++ c :: b)) = (x :: rest) :: splitChar c b
    rw [splitChar_cons, ih hrest b]
    simp [hxc]

/-- A successfully parsed IPv4 address string contains no slash. -/
theorem parseIPv4Address_no_slash {s : Str} {ip : Nat}
    (h : parseIPv4Address s = .ok ip) : '/' ∉ s := by
  unfold parseIPv4Address at h
  intro hmem
  simp [hmem] at h

/-- A successfully parsed IPv6 address string contains no slash. -/
theorem parseIPv6Address_no_slash {s : Str} {ip : Nat}
    (h : parseIPv6Address s = .ok ip) : '/' ∉ s := by
  unfold parseIPv6Address at h
  intro hmem
  simp [hmem] at h

/-- What success of the decimal prefix-length parser guarantees. -/
theorem prefixFromPrefixString_ok {maxLen : Nat} {s : Str} {p : Nat}
    (h : prefixFromPrefixString maxLen s = .ok p) :
    s.all Char.isDigit = true ∧ p ≤ maxLen := by
  unfold prefixFromPrefixString at h
  split at h
  · dsimp only at h
    split at h
    · rename_i hcond hle
      refine ⟨hcond.2, ?_⟩
      injection h with h
      omega
    · exact absurd h (by simp)
  · exact absurd h (by simp)

/-- A string of decimal digits contains no slash. -/
theorem no_slash_of_digits {s : Str} (h : s.all Char.isDigit = true) : '/' ∉ s := by
  intro hmem
  have := (List.all_eq_true.mp h) '/' hmem
  simp [Char.isDigit] at this

/-- `_prefix_from_ip_int` never returns more than the address width. -/
theorem prefixFromIpInt_le {maxLen ip p : Nat}
    (h : prefixFromIpInt maxLen ip = .ok p) : p ≤ maxLen := by
  unfold prefixFromIpInt at h
  dsimp only at h
  split at h
  · injection h with h; omega
  · exact absurd h (by simp)

/-- `_prefix_from_ip_string` never returns more than 32. -/
theorem prefixFromIpString_le {s : Str} {p : Nat}
    (h : prefixFromIpString s = .ok p) : p ≤ 32 := by
  unfold prefixFromIpString at h
  split at h
  · exact absurd h (by simp)
  · split at h
    · rename_i heq
      injection h with h
      subst h
      exact prefixFromIpInt_le heq
    · split at h
      · rename_i heq
        injection h with h
        subst h
        exact prefixFromIpInt_le heq
      · exact absurd h (by simp)

/-- Success of the IPv4 netmask builder: the mask is the canonical netmask
of a prefix length within the width. -/
theorem makeNetmaskV4_ok {s : Str} {m p : Nat}
    (h : makeNetmaskV4 s = .ok (m, p)) :
    m = netmaskOfLen 32 p ∧ p ≤ 32 := by
  unfold makeNetmaskV4 at h
  split at h
  · rename_i plen heq
    injection h with h
    obtain ⟨hm, hp⟩ := Prod.mk.injEq .. |>.mp h
    subst hp
    exact ⟨hm.symm, (prefixFromPrefixString_ok heq).2⟩
  · split at h
    · rename_i plen heq
      injection h with h
      obtain ⟨hm, hp⟩ := Prod.mk.injEq .. |>.mp h
      subst hp
      exact ⟨hm.symm, prefixFromIpString_le heq⟩
    · exact absurd h (by simp)

/-- Success of the IPv6 netmask builder. -/
theorem makeNetmaskV6_ok {s : Str} {m p : Nat}
    (h : makeNetmaskV6 s = .ok (m, p)) :
    m = netmaskOfLen 128 p ∧ p ≤ 128 := by
  unfold makeNetmaskV6 at h
  split at h
  · rename_i plen heq
    injection h with h
    obtain ⟨hm, hp⟩ := Prod.mk.injEq .. |>.mp h
    subst hp
    exact ⟨hm.symm, (prefixFromPrefixString_ok heq).2⟩
  · exact absurd h (by simp)

/-- Non-strict IPv4 network parsing always yields a normalized network. -/
theorem parseIPv4Network_normalized {s : Str} {n : PyIPNetwork}
    (h : parseIPv4Network s false = .ok n) : IsNormalizedNet 32 n := by
  unfold parseIPv4Network at h
  dsimp only at h
  split at h
  · exact absurd h (by simp)
  · split at h
    · exact absurd h (by simp)
    · rename_i ip hip
      split at h
      · exact absurd h (by simp)
      · rename_i mask plen hmk
        simp only [Bool.false_eq_true, if_false] at h
        injection h with h
        subst h
        have hmp : mask = netmaskOfLen 32 plen ∧ plen ≤ 32 := by
          split at hmk
          · exact makeNetmaskV4_ok hmk
          · injection hmk with hmk
            obtain ⟨hm, hp⟩ := Prod.mk.injEq .. |>.mp hmk.symm
            subst hp
            exact ⟨hm, Nat.le_refl 32⟩
        obtain ⟨hm, hp⟩ := hmp
        subst hm
        exact ⟨hp, land_netmask_lt ip 32 plen, land_netmask_mod ip hp⟩

/-- Non-strict IPv6 network parsing always yields a normalized network. -/
theorem parseIPv6Network_normalized {s : Str} {n : PyIPNetwork}
    (h : parseIPv6Network s false = .ok n) : IsNormalizedNet 128 n := by
  unfold parseIPv6Network at h
  dsimp only at h
  split at h
  · exact absurd h (by simp)
  · split at h
    · exact absurd h (by simp)
    · rename_i ip hip
      split at h
      · exact absurd h (by simp)
      · rename_i mask plen hmk
        simp only [Bool.false_eq_true, if_false] at h
        injection h with h
        subst h
        have hmp : mask = netmaskOfLen 128 plen ∧ plen ≤ 128 := by
          split at hmk
          · exact makeNetmaskV6_ok hmk
          · injection hmk with hmk
            obtain ⟨hm, hp⟩ := Prod.mk.injEq .. |>.mp hmk.symm
            subst hp
            exact ⟨hm, Nat.le_refl 128⟩
        obtain ⟨hm, hp⟩ := hmp
        subst hm
        exact ⟨hp, land_netmask_lt ip 128 plen, land_netmask_mod ip hp⟩

/-- Parsing `<address>/<decimal length>` with `strict=False` masks the host
bits, IPv4 case. -/
theorem parseIPv4Network_concat {a ls : Str} {ip plen : Nat}
    (ha : parseIPv4Address a = .ok ip)
    (hl : prefixFromPrefixString 32 ls = .ok plen) :
    parseIPv4Network (a ++ '/' :: ls) false = .ok ⟨ip &&& netmaskOfLen 32 plen, plen⟩ := by
  have hna : '/' ∉ a := parseIPv4Address_no_slash ha
  have hnl : '/' ∉ ls := no_slash_of_digits (prefixFromPrefixString_ok hl).1
  have hsplit : splitChar '/' (a ++ '/' :: ls) = [a, ls] := by
    rw [splitChar_append hna, splitChar_not_mem hnl]
  unfold parseIPv4Network
  rw [hsplit]
  simp only [List.length_cons, List.length_nil, List.headD, List.getD]
  norm_num
  rw [ha]
  simp only [makeNetmaskV4]
  rw [hl]

/-- Parsing `<address>/<decimal length>` with `strict=False` masks the host
bits, IPv6 case. -/
theorem parseIPv6Network_concat {a ls : Str} {ip plen : Nat}
    (ha : parseIPv6Address a = .ok ip)
    (hl : prefixFromPrefixString 128 ls = .ok plen) :
    parseIPv6Network (a ++ '/' :: ls) false = .ok ⟨ip &&& netmaskOfLen 128 plen, plen⟩ := by
  have hna : '/' ∉ a := parseIPv6Address_no_slash ha
  have hnl : '/' ∉ ls := no_slash_of_digits (prefixFromPrefixString_ok hl).1
  have hsplit : splitChar '/' (a ++ '/' :: ls) = [a, ls] := by
    rw [splitChar_append hna, splitChar_not_mem hnl]
  unfold parseIPv6Network
  rw [hsplit]
  simp only [List.length_cons, List.length_nil, List.headD, List.getD]
  norm_num
  rw [ha]
  simp only [makeNetmaskV6]
  rw [hl]

/-- Reading back the key just set. -/
theorem recGet_recSet_same : ∀ (record : Record) (k : Str) (v : JVal),
    recGet (recSet record k v) k = some v := by
  intro record k v
  induction record with
  | nil => simp [recSet, recGet]
  | cons kv rest ih =>
    obtain ⟨k', v'⟩ := kv
    by_cases hk : k = k' <;> simp [recSet, recGet, hk, ih]

/-- Setting one key leaves every other key unchanged. -/
theorem recGet_recSet_other : ∀ (record : Record) {k k' : Str} (v : JVal),
    k ≠ k' → recGet (recSet record k' v) k = recGet record k := by
  intro record k k' v hne
  induction record with
  | nil => simp [recSet, recGet, hne]
  | cons kv rest ih =>
    obtain ⟨k'', v''⟩ := kv
    by_cases h1 : k' = k''
    · subst h1
      simp [recSet, recGet, hne]
    · by_cases h2 : k = k'' <;> simp [recSet, recGet, h1, h2, ih]

/-- Once a field is a list, further merges append to it. -/
theorem mergeInto_arr : ∀ (l : List JVal) (xs : List JVal),
    mergeInto (some (.arr xs)) l = some (.arr (xs ++ l)) := by
  intro l
  induction l with
  | nil => intro xs; simp [mergeInto]
  | cons v rest ih =>
    intro xs
    have hstep : mergeInto (some (JVal.arr xs)) (v :: rest)
        = mergeInto (some (.arr (xs ++ [v]))) rest := rfl
    rw [hstep, ih]
    simp

/-- The merged shape of a recognized field fed by string values: absent for
no occurrence, the bare string for one, the ordered list for two or more. -/
theorem mergeInto_none_strings (vs : List Str) :
    mergeInto none (vs.map JVal.str) = mergedField vs := by
  match vs with
  | [] => rfl
  | [v] => rfl
  | v :: w :: rest =>
    have h1 : mergeInto none ((v :: w :: rest).map JVal.str)
        = mergeInto (some (.arr [JVal.str v, JVal.str w])) (rest.map JVal.str) := rfl
    rw [h1, mergeInto_arr]
    rfl

/-- The attribute loop acts on each recognized field as the fold of the
values carried under that name, in source order. -/
theorem processAttrs_recGet : ∀ (attrs : List JVal) (record r : Record) (f : Str),
    processAttrs attrs record = some r → f ∈ recognizedFields →
    recGet r f = mergeInto (recGet record f) (valuesOf attrs f) := by
  intro attrs
  induction attrs with
  | nil =>
    intro record r f h _
    injection h with h
    subst h
    rfl
  | cons attr rest ih =>
    intro record r f h hf
    match attr with
    | .null | .str _ | .arr _ => exact absurd h (by simp [processAttrs])
    | .obj ad =>
      rw [processAttrs] at h
      rw [valuesOf]
      cases hnm : (jGet ad "name".data).getD (.str "".data) with
      | null | arr _ | obj _ =>
        rw [hnm] at h
        have hstep := ih _ r f h hf
        rw [hstep]
        simp [mergeAttr, hnm]
      | str s =>
        rw [hnm] at h
        have hstep := ih _ r f h hf
        dsimp only
        by_cases hsf : s = f
        · subst hsf
          rw [if_pos rfl, hstep]
          have hrec : s ∈ recognizedFields := hf
          simp only [mergeAttr, if_pos hrec]
          cases hget : recGet record s with
          | none =>
            rw [recGet_recSet_same]
            rfl
          | some old =>
            cases old with
            | arr xs =>
              rw [recGet_recSet_same]
              rfl
            | null =>
              rw [recGet_recSet_same]
              rfl
            | str x =>
              rw [recGet_recSet_same]
              rfl
            | obj d =>
              rw [recGet_recSet_same]
              rfl
        · rw [if_neg hsf, hstep]
          simp only [mergeAttr]
          by_cases hrec : s ∈ recognizedFields
          · rw [if_pos hrec]
            have hfs : f ≠ s := fun he => hsf he.symm
            cases hget : recGet record s with
            | none => rw [recGet_recSet_other _ _ hfs]
            | some old => cases old <;> rw [recGet_recSet_other _ _ hfs]
          · rw [if_neg hrec]

/-- The attribute loop never touches a key outside the recognized field
set (in particular never the `inetnum` key). -/
theorem processAttrs_preserves : ∀ (attrs : List JVal) (record r : Record) (k : Str),
    processAttrs attrs record = some r → k ∉ recognizedFields →
    recGet r k = recGet record k := by
  intro attrs
  induction attrs with
  | nil =>
    intro record r k h _
    injection h with h
    subst h
    rfl
  | cons attr rest ih =>
    intro record r k h hk
    match attr with
    | .null | .str _ | .arr _ => exact absurd h (by simp [processAttrs])
    | .obj ad =>
      rw [processAttrs] at h
      have hstep := ih _ r k h hk
      rw [hstep]
      simp only [mergeAttr]
      cases hnm : (jGet ad "name".data).getD (.str "".data) with
      | null | arr _ | obj _ => rfl
      | str s =>
        dsimp only
        by_cases hrec : s ∈ recognizedFields
        · rw [if_pos hrec]
          have hks : k ≠ s := fun he => hk (he ▸ hrec)
          cases hget : recGet record s with
          | none => rw [recGet_recSet_other _ _ hks]
          | some old => cases old <;> rw [recGet_recSet_other _ _ hks]
        · rw [if_neg hrec]

/-- The `inetnum` key is not a recognized attribute field. -/
theorem inetnum_not_recognized : "inetnum".data ∉ recognizedFields := by decide

/-- On a canonical raw object with an accepted type tag, the extractor is
exactly the attribute loop over a record seeded with the primary key. -/
theorem extract_mkRawObject {ty : Str} (pkv : JVal) (attrs : List JVal)
    (hty : ty = "inetnum".data ∨ ty = "inet6num".data) :
    extractRecordFromObject (mkRawObject ty pkv attrs)
      = processAttrs attrs [("inetnum".data, pkv)] := by
  cases hty with
  | inl h => subst h; rfl
  | inr h => subst h; rfl

/-- An extracted record always carries the object's first primary-key value
under its `inetnum` key. -/
theorem extract_some_pk {obj : JVal} {r : Record}
    (h : extractRecordFromObject obj = some r) :
    ∃ pkv, primaryKeyValue obj = some pkv ∧ recGet r "inetnum".data = some pkv := by
  unfold extractRecordFromObject at h
  split at h
  case h_2 => exact absurd h (by simp)
  rename_i d
  split at h
  case h_2 => exact absurd h (by simp)
  rename_i t heqt
  split at h
  case isFalse => exact absurd h (by simp)
  rename_i hty
  split at h
  case h_2 => exact absurd h (by simp)
  rename_i pkv hpk
  refine ⟨pkv, hpk, ?_⟩
  have hbase : recGet [("inetnum".data, pkv)] "inetnum".data = some pkv := by
    simp [recGet]
  split at h
  · split at h
    · split at h
      · rw [processAttrs_preserves _ _ _ _ h inetnum_not_recognized, hbase]
      · exact absurd h (by simp)
    · injection h with h
      subst h
      exact hbase
    · exact absurd h (by simp)
  · injection h with h
    subst h
    exact hbase

/-- Extraction succeeds only for the two accepted type tags. -/
theorem extract_some_type {obj : JVal} {r : Record}
    (h : extractRecordFromObject obj = some r) :
    typeTagOf obj = some "inetnum".data ∨ typeTagOf obj = some "inet6num".data := by
  unfold extractRecordFromObject at h
  split at h
  case h_2 => exact absurd h (by simp)
  rename_i d
  split at h
  case h_2 => exact absurd h (by simp)
  rename_i t heqt
  split at h
  case isFalse => exact absurd h (by simp)
  rename_i hty
  have htt : typeTagOf (.obj d) = some t := by
    unfold typeTagOf
    dsimp only
    rw [heqt]
  rw [htt]
  rcases hty with h1 | h1
  · exact Or.inl (by rw [h1])
  · exact Or.inr (by rw [h1])

/-- A type tag other than `inetnum`/`inet6num` (including a missing or
non-string tag) makes the extractor return `None`. -/
theorem extract_none_of_type {obj : JVal}
    (h1 : typeTagOf obj ≠ some "inetnum".data)
    (h2 : typeTagOf obj ≠ some "inet6num".data) :
    extractRecordFromObject obj = none := by
  cases obj with
  | null => rfl
  | str s => rfl
  | arr l => rfl
  | obj d =>
    unfold extractRecordFromObject
    dsimp only
    cases heqt : jGet d "type".data with
    | none => rfl
    | some v =>
      cases v with
      | null => rfl
      | arr _ => rfl
      | obj _ => rfl
      | str t =>
        have htt : typeTagOf (.obj d) = some t := by
          unfold typeTagOf
          dsimp only
          rw [heqt]
        dsimp only
        split
        · rename_i hty
          rw [htt] at h1 h2
          rcases hty with h | h
          · exact absurd (by rw [h]) h1
          · exact absurd (by rw [h]) h2
        · rfl

/-- A missing `primary-key` member makes the extractor return `None`. -/
theorem extract_none_no_pk {d : List (Str × JVal)}
    (h : jGet d "primary-key".data = none) :
    extractRecordFromObject (.obj d) = none := by
  have hpk : primaryKeyValue (.obj d) = none := by
    unfold primaryKeyValue
    dsimp only
    rw [h]
  unfold extractRecordFromObject
  dsimp only
  cases heqt : jGet d "type".data with
  | none => rfl
  | some v =>
    cases v with
    | null => rfl
    | arr _ => rfl
    | obj _ => rfl
    | str t =>
      dsimp only
      split
      · rw [hpk]
      · rfl

/-- A v4 validation success comes from a v4 parse success. -/
theorem validate_ok_v4 {s : Str} {n : PyIPNetwork}
    (h : validatePrefixStr s = .ok (.v4 n)) : parseIPv4Network s false = .ok n := by
  unfold validatePrefixStr at h
  split at h
  · rename_i n' heq
    injection h with h
    injection h with h
    subst h
    exact heq
  · split at h
    · injection h with h
      injection h
    · exact absurd h (by simp)
    · exact absurd h (by simp)
  · exact absurd h (by simp)

/-- A v6 validation success comes from a v6 parse success. -/
theorem validate_ok_v6 {s : Str} {n : PyIPNetwork}
    (h : validatePrefixStr s = .ok (.v6 n)) : parseIPv6Network s false = .ok n := by
  unfold validatePrefixStr at h
  split at h
  · injection h with h
    injection h
  · split at h
    · rename_i n' heq
      injection h with h
      injection h with h
      subst h
      exact heq
    · exact absurd h (by simp)
    · exact absurd h (by simp)
  · exact absurd h (by simp)

/-- The normalizer only returns normalized v4 prefixes. -/
theorem validate_ok_v4_normalized {s : Str} {n : PyIPNetwork}
    (h : validatePrefixStr s = .ok (.v4 n)) : IsNormalizedNet 32 n :=
  parseIPv4Network_normalized (validate_ok_v4 h)

/-- The normalizer only returns normalized v6 prefixes. -/
theorem validate_ok_v6_normalized {s : Str} {n : PyIPNetwork}
    (h : validatePrefixStr s = .ok (.v6 n)) : IsNormalizedNet 128 n :=
  parseIPv6Network_normalized (validate_ok_v6 h)

/-- Claim C5: for every normalized Address Prefix the Range Query Builder
deterministically produces exactly one Range Query with no failure path: for
an IPv4 prefix the query string is `"<network-address> - <broadcast-address>"`
with object type `inetnum`, and for an IPv6 prefix it is the prefix's CIDR
string with object type `inet6num`. -/
theorem claim_C5_range_query_builder :
    (∀ p : IPNetwork, buildRangeQuery p = buildRangeQuery p)
    ∧ (∀ n : PyIPNetwork, buildRangeQuery (.v4 n)
        = (ipv4ToStr n.networkAddress ++ " - ".data ++ ipv4ToStr (broadcastAddr 32 n),
           "inetnum".data))
    ∧ (∀ n : PyIPNetwork, buildRangeQuery (.v6 n)
        = (ipv6ToStr n.networkAddress ++ '/' :: natToDecStr n.prefixlen, "inet6num".data))
    ∧ buildRangeQuery (.v4 ⟨167772160, 24⟩) = ("10.0.0.0 - 10.0.0.255".data, "inetnum".data)
    ∧ buildRangeQuery (.v6 ⟨42540766411282592856903984951653826560, 32⟩)
        = ("2001:db8::/32".data, "inet6num".data) :=
  ⟨fun _ => rfl, fun _ => rfl, fun _ => rfl, by rfl, by rfl⟩

/-- Claim C9: the Registry Client never raises past the query boundary: a 404
yields the result set unchanged with no sleep, a 429 yields it unchanged
after a single 5-second pause with no retry, and any other non-200 status,
transport failure, or JSON parse failure yields it unchanged. -/
theorem claim_C9_query_boundary :
    (∀ (results : List Record) (body : Option JVal),
        queryRange (.response 404 body) results = ⟨results, 0⟩)
    ∧ (∀ (results : List Record) (body : Option JVal),
        queryRange (.response 429 body) results = ⟨results, 5⟩)
    ∧ (∀ (results : List Record) (status : Nat) (body : Option JVal),
        status ≠ 200 → status ≠ 404 → status ≠ 429 →
        queryRange (.response status body) results = ⟨results, 0⟩)
    ∧ (∀ results : List Record, queryRange .transportError results = ⟨results, 0⟩)
    ∧ (∀ results : List Record, queryRange (.response 200 none) results = ⟨results, 0⟩) := by
  refine ⟨fun results body => rfl, fun results body => rfl, ?_,
    fun results => rfl, fun results => rfl⟩
  intro results status body h200 h404 h429
  unfold queryRange
  dsimp only
  rw [if_neg h429, if_neg h404, if_pos h200]

/-- Witness for C9 at status 500. -/
theorem claim_C9_witness :
    queryRange (.response 500 none) [] = ⟨[], 0⟩ :=
  claim_C9_query_boundary.2.2.1 [] 500 none (by decide) (by decide) (by decide)

/-- Claim C4: the extractor returns `None` for an unrecognized type tag, for
a missing primary key, and on structural failure; a successful extraction
always carries the primary key and an accepted type tag; a `person` object
and an object with no primary key both yield `None`. -/
theorem claim_C4_extractor_rejects :
    (∀ obj : JVal, typeTagOf obj ≠ some "inetnum".data →
        typeTagOf obj ≠ some "inet6num".data → extractRecordFromObject obj = none)
    ∧ (∀ d : List (Str × JVal), jGet d "primary-key".data = none →
        extractRecordFromObject (.obj d) = none)
    ∧ (∀ (obj : JVal) (r : Record), extractRecordFromObject obj = some r →
        recGet r "inetnum".data ≠ none
          ∧ (typeTagOf obj = some "inetnum".data ∨ typeTagOf obj = some "inet6num".data))
    ∧ extractRecordFromObject (.obj [("type".data, .str "person".data),
        ("primary-key".data, .obj [("attribute".data,
          .arr [.obj [("value".data, .str "P1".data)]])])]) = none
    ∧ extractRecordFromObject (.obj [("type".data, .str "inetnum".data)]) = none := by
  refine ⟨fun obj h1 h2 => extract_none_of_type h1 h2,
    fun d h => extract_none_no_pk h, ?_, by rfl, by rfl⟩
  intro obj r h
  obtain ⟨pkv, hpk, hget⟩ := extract_some_pk h
  refine ⟨?_, extract_some_type h⟩
  rw [hget]
  simp

/-- Witness for C4 at a `route`-typed object. -/
theorem claim_C4_witness :
    extractRecordFromObject (.obj [("type".data, .str "route".data)]) = none :=
  claim_C4_extractor_rejects.1 _ (by decide) (by decide)

/-- Claim C10: for every accepted Raw Registry Object the record's `inetnum`
field equals exactly the first primary-key attribute's value; `inetnum` is
not in the recognized field set, so an attribute named `inetnum` can neither
overwrite it nor upgrade it to a list, and a string primary key stays a
single string. -/
theorem claim_C10_inetnum_identity :
    (∀ (obj : JVal) (r : Record), extractRecordFromObject obj = some r →
        ∃ pkv, primaryKeyValue obj = some pkv ∧ recGet r "inetnum".data = some pkv)
    ∧ ("inetnum".data ∈ recognizedFields → False)
    ∧ (∀ (obj : JVal) (r : Record) (s : Str), extractRecordFromObject obj = some r →
        primaryKeyValue obj = some (.str s) →
        recGet r "inetnum".data = some (.str s)) := by
  refine ⟨fun obj r h => extract_some_pk h, inetnum_not_recognized, ?_⟩
  intro obj r s h hpk
  obtain ⟨pkv, hpk', hget⟩ := extract_some_pk h
  rw [hpk] at hpk'
  injection hpk' with hpk'
  rw [hget, hpk']

/-- Witness for C10: an attribute named `inetnum` does not disturb the
primary-key value. -/
theorem claim_C10_witness :
    recGet [("inetnum".data, JVal.str "10.0.0.0 - 10.0.0.255".data),
      ("netname".data, JVal.str "N1".data)] "inetnum".data
      = some (.str "10.0.0.0 - 10.0.0.255".data) :=
  claim_C10_inetnum_identity.2.2
    (mkRawObject "inetnum".data (.str "10.0.0.0 - 10.0.0.255".data)
      [mkAttr "netname".data "N1".data, mkAttr "inetnum".data "10.9.9.9 - 10.9.9.9".data])
    _ _ (by rfl) (by rfl)

/-- Claim C2: for an accepted raw object and a recognized field name carried
by string-valued attributes, the extracted record holds the single value for
one occurrence, a two-element list for two, and an ordered list with further
values appended for three or more, in source order. -/
theorem claim_C2_multi_value_merge (ty : Str) (pkv : JVal) (attrs : List JVal)
    (f : Str) (vs : List Str) (r : Record)
    (hty : ty = "inetnum".data ∨ ty = "inet6num".data)
    (hf : f ∈ recognizedFields)
    (hvals : valuesOf attrs f = vs.map JVal.str)
    (hr : extractRecordFromObject (mkRawObject ty pkv attrs) = some r) :
    recGet r f = mergedField vs := by
  rw [extract_mkRawObject pkv attrs hty] at hr
  have h1 := processAttrs_recGet attrs _ r f hr hf
  have h2 : recGet [("inetnum".data, pkv)] f = none := by
    have hne : f ≠ "inetnum".data := fun he => inetnum_not_recognized (he ▸ hf)
    simp [recGet, hne]
  rw [h1, h2, hvals]
  exact mergeInto_none_strings vs

/-- Witness for C2: `descr` appearing three times yields the ordered
three-element list. -/
theorem claim_C2_witness :
    recGet [("inetnum".data, JVal.str "192.0.2.0 - 192.0.2.255".data),
        ("descr".data, JVal.arr [.str "d1".data, .str "d2".data, .str "d3".data])]
        "descr".data
      = some (.arr [.str "d1".data, .str "d2".data, .str "d3".data]) :=
  claim_C2_multi_value_merge "inetnum".data (.str "192.0.2.0 - 192.0.2.255".data)
    [mkAttr "descr".data "d1".data, mkAttr "descr".data "d2".data,
     mkAttr "descr".data "d3".data]
    "descr".data ["d1".data, "d2".data, "d3".data] _
    (Or.inl rfl) (by decide) (by rfl) (by rfl)

/-- Claim C3: the Result Set is unique by `inetnum` value: a record is
appended only when no present record has a Python-equal `inetnum` value,
the uniqueness invariant is preserved by every append, and of two objects
with the same primary-key value only the first is retained, giving a result
set of size 1. -/
theorem claim_C3_dedup_aggregator :
    (∀ (results : List Record) (record : Record),
        results.any (inetnumMatches record) = true → dedupAppend results record = results)
    ∧ (∀ (results : List Record) (record : Record),
        results.any (inetnumMatches record) = false →
        dedupAppend results record = results ++ [record])
    ∧ (∀ (results : List Record) (record : Record),
        UniqueByInetnum results → UniqueByInetnum (dedupAppend results record))
    ∧ (∀ (o1 o2 : JVal) (r1 r2 : Record),
        extractRecordFromObject o1 = some r1 → extractRecordFromObject o2 = some r2 →
        r1.isEmpty = false → r2.isEmpty = false → inetnumMatches r2 r1 = true →
        processAllObjects (mkObjectsResponse [o1, o2]) [] = some [r1]) := by
  have hyes : ∀ (results : List Record) (record : Record),
      results.any (inetnumMatches record) = true → dedupAppend results record = results := by
    intro results record h
    simp [dedupAppend, h]
  have hno : ∀ (results : List Record) (record : Record),
      results.any (inetnumMatches record) = false →
      dedupAppend results record = results ++ [record] := by
    intro results record h
    simp [dedupAppend, h]
  refine ⟨hyes, hno, ?_, ?_⟩
  · intro results record hu
    unfold dedupAppend
    split
    · exact hu
    · rename_i hany
      rw [Bool.not_eq_true] at hany
      rw [UniqueByInetnum, List.pairwise_append]
      refine ⟨hu, List.pairwise_singleton _ _, ?_⟩
      intro a ha b hb
      rw [List.mem_singleton] at hb
      subst hb
      have := List.any_eq_false.mp hany a ha
      rw [Bool.not_eq_true] at this
      exact this
  · intro o1 o2 r1 r2 h1 h2 hE1 hE2 hm
    have hred : processAllObjects (mkObjectsResponse [o1, o2]) []
        = some ([o1, o2].foldl processObjectStep []) := rfl
    have hstep1 : processObjectStep [] o1 = [r1] := by
      unfold processObjectStep
      rw [h1]
      show (if List.isEmpty r1 = true then [] else dedupAppend [] r1) = [r1]
      rw [hE1]
      rfl
    have hstep2 : processObjectStep [r1] o2 = [r1] := by
      unfold processObjectStep
      rw [h2]
      show (if List.isEmpty r2 = true then [r1] else dedupAppend [r1] r2) = [r1]
      rw [hE2]
      show dedupAppend [r1] r2 = [r1]
      have hany : [r1].any (inetnumMatches r2) = true := by
        simp [List.any, hm]
      unfold dedupAppend
      rw [if_pos hany]
    rw [hred]
    show some (processObjectStep (processObjectStep [] o1) o2) = some [r1]
    rw [hstep1, hstep2]

/-- Witness for C3: two raw objects with the same primary key collapse to a
one-record result set keeping the first. -/
theorem claim_C3_witness :
    processAllObjects (mkObjectsResponse
      [mkRawObject "inetnum".data (.str "10.0.0.0 - 10.0.0.255".data)
         [mkAttr "netname".data "FIRST".data],
       mkRawObject "inetnum".data (.str "10.0.0.0 - 10.0.0.255".data)
         [mkAttr "netname".data "SECOND".data]]) []
      = some [[("inetnum".data, JVal.str "10.0.0.0 - 10.0.0.255".data),
               ("netname".data, JVal.str "FIRST".data)]] :=
  claim_C3_dedup_aggregator.2.2.2 _ _ _ _ (by rfl) (by rfl) (by rfl) (by rfl) (by rfl)

/-- Claim C7: a valid IPv4 (or IPv6) address/length string is never rejected
for host bits being set: non-strict parsing succeeds, masks the address with
the netmask, and the returned base address has its host bits cleared. -/
theorem claim_C7_host_bits_masked :
    (∀ (a ls : Str) (ip plen : Nat),
        parseIPv4Address a = .ok ip → prefixFromPrefixString 32 ls = .ok plen →
        parseIPv4Network (a ++ '/' :: ls) false = .ok ⟨ip &&& netmaskOfLen 32 plen, plen⟩
          ∧ (ip &&& netmaskOfLen 32 plen) % 2 ^ (32 - plen) = 0)
    ∧ (∀ (a ls : Str) (ip plen : Nat),
        parseIPv6Address a = .ok ip → prefixFromPrefixString 128 ls = .ok plen →
        parseIPv6Network (a ++ '/' :: ls) false = .ok ⟨ip &&& netmaskOfLen 128 plen, plen⟩
          ∧ (ip &&& netmaskOfLen 128 plen) % 2 ^ (128 - plen) = 0) := by
  constructor
  · intro a ls ip plen ha hl
    exact ⟨parseIPv4Network_concat ha hl,
      land_netmask_mod ip (prefixFromPrefixString_ok hl).2⟩
  · intro a ls ip plen ha hl
    exact ⟨parseIPv6Network_concat ha hl,
      land_netmask_mod ip (prefixFromPrefixString_ok hl).2⟩

/-- Witness for C7: `10.0.0.77/24` and `2001:db8::ff/32`, both with host
bits set, are parsed and masked. -/
theorem claim_C7_witness :
    (parseIPv4Network ("10.0.0.77".data ++ '/' :: "24".data) false
        = .ok ⟨167772237 &&& netmaskOfLen 32 24, 24⟩
      ∧ (167772237 &&& netmaskOfLen 32 24) % 2 ^ (32 - 24) = 0)
    ∧ (parseIPv6Network ("2001:db8::ff".data ++ '/' :: "32".data) false
        = .ok ⟨42540766411282592856903984951653826815 &&& netmaskOfLen 128 32, 32⟩
      ∧ (42540766411282592856903984951653826815 &&& netmaskOfLen 128 32)
          % 2 ^ (128 - 32) = 0) :=
  ⟨claim_C7_host_bits_masked.1 _ _ _ _ (by rfl) (by rfl),
   claim_C7_host_bits_masked.2 _ _ _ _ (by rfl) (by rfl)⟩

/-- Counterexample to claim C6 as stated: on `"10.0.0.0/33"` IPv4 parsing
fails (and IPv6 parsing would fail too), yet the normalizer does not raise
its wrapping `Invalid IP prefix` error: the failure is a
`NetmaskValueError`, which its `except` clauses do not catch, so it escapes
unwrapped and the IPv6 fallback is never attempted. -/
theorem claim_C6_counterexample :
    parseIPv4Network "10.0.0.0/33".data false
        = .error (.netmaskValueError "33 is not a valid netmask".data)
    ∧ parseIPv6Network "10.0.0.0/33".data false
        = .error (.addressValueError "At least 3 parts expected in 10.0.0.0".data)
    ∧ validatePrefixStr "10.0.0.0/33".data
        = .error (.uncaught (.netmaskValueError "33 is not a valid netmask".data))
    ∧ isWrappedErr (validatePrefixStr "10.0.0.0/33".data) = false :=
  ⟨by rfl, by rfl, by rfl, by rfl⟩

/-- Claim C6 (amended): the normalizer tries IPv4 first and returns it on
success; if IPv4 parsing fails with an `AddressValueError` it tries IPv6 and
returns it on success; if both fail with `AddressValueError`s it fails with
the wrapping error carrying the original string and the underlying reason;
every validation failure exits with code 1; and a success is always a
normalized prefix.  (A `NetmaskValueError` escapes unwrapped instead, per
the counterexample.) -/
theorem claim_C6_validate_prefix_amended :
    (∀ (s : Str) (n : PyIPNetwork), parseIPv4Network s false = .ok n →
        validatePrefixStr s = .ok (.v4 n))
    ∧ (∀ (s m : Str) (n : PyIPNetwork),
        parseIPv4Network s false = .error (.addressValueError m) →
        parseIPv6Network s false = .ok n → validatePrefixStr s = .ok (.v6 n))
    ∧ (∀ (s m m' : Str),
        parseIPv4Network s false = .error (.addressValueError m) →
        parseIPv6Network s false = .error (.addressValueError m') →
        validatePrefixStr s = .error (.invalidPrefixErr s m'))
    ∧ (∀ (s : Str) (e : ValidateErr), validatePrefixStr s = .error e →
        mainValidateOutcome s = .error 1)
    ∧ (∀ (s : Str) (n : PyIPNetwork), validatePrefixStr s = .ok (.v4 n) →
        IsNormalizedNet 32 n)
    ∧ (∀ (s : Str) (n : PyIPNetwork), validatePrefixStr s = .ok (.v6 n) →
        IsNormalizedNet 128 n) := by
  refine ⟨?_, ?_, ?_, ?_, fun s n h => validate_ok_v4_normalized h,
    fun s n h => validate_ok_v6_normalized h⟩
  · intro s n h
    unfold validatePrefixStr
    rw [h]
  · intro s m n h4 h6
    unfold validatePrefixStr
    rw [h4, h6]
  · intro s m m' h4 h6
    unfold validatePrefixStr
    rw [h4, h6]
  · intro s e h
    unfold mainValidateOutcome
    rw [h]

/-- Witness for C6 (amended) at `"banana"`: both parsers fail with address
errors and the wrapping error carries the original string and the
underlying IPv6 reason. -/
theorem claim_C6_witness :
    validatePrefixStr "banana".data
      = .error (.invalidPrefixErr "banana".data
          "At least 3 parts expected in banana".data) :=
  claim_C6_validate_prefix_amended.2.2.1 "banana".data
    "Expected 4 octets in banana".data "At least 3 parts expected in banana".data
    (by rfl) (by rfl)

/-- Counterexample to claim C1 as stated: for the IPv6 target `::/0` and the
candidate record `"2001:db8:: - 2001:db8::1"` — squarely in `start - end`
form, with both endpoints valid same-version addresses — the claim's
criterion `NOT (end < network OR start > broadcast)` holds, yet the filter
excludes the record: for a v6 target there is no range branch — the code
parses the whole string as a CIDR network, which this range string is
not. -/
theorem claim_C1_counterexample :
    validatePrefixStr "::/0".data = .ok (.v6 ⟨0, 0⟩)
    ∧ recordInPrefixCheck [("inetnum".data, JVal.str "2001:db8:: - 2001:db8::1".data)]
        (.v6 ⟨0, 0⟩) = some false
    ∧ hasSeq " - ".data "2001:db8:: - 2001:db8::1".data = true
    ∧ pySplitSeq "2001:db8:: - 2001:db8::1".data " - ".data
        = ["2001:db8::".data, "2001:db8::1".data]
    ∧ parseIPv6Address "2001:db8::".data = .ok 42540766411282592856903984951653826560
    ∧ parseIPv6Address "2001:db8::1".data = .ok 42540766411282592856903984951653826561
    ∧ ¬ ((42540766411282592856903984951653826561 : Nat)
          < (PyIPNetwork.mk 0 0).networkAddress
        ∨ (42540766411282592856903984951653826560 : Nat) > broadcastAddr 128 ⟨0, 0⟩) :=
  ⟨by rfl, by rfl, by rfl, by rfl, by rfl, by rfl, by decide⟩

/-- Claim C1 (amended): for every IPv4 target prefix and every candidate
record whose `inetnum` string splits as `"start - end"` with both sides
valid IPv4 addresses after stripping, the containment filter admits the
record exactly when `NOT (end < prefix.network_address OR start >
prefix.broadcast_address)`; in particular, for prefix `10.0.0.0/24` the
record `"10.0.0.128 - 10.0.0.200"` is admitted and `"10.0.1.0 - 10.0.1.50"`
is excluded. -/
theorem claim_C1_range_filter_amended :
    (∀ (p : PyIPNetwork) (record : Record) (s a b : Str) (startIp endIp : Nat),
      recGet record "inetnum".data = some (.str s) →
      hasSeq " - ".data s = true →
      pySplitSeq s " - ".data = [a, b] →
      parseIPv4Address (pyStrip a) = .ok startIp →
      parseIPv4Address (pyStrip b) = .ok endIp →
      (recordInPrefixCheck record (.v4 p) = some true
        ↔ ¬ (endIp < p.networkAddress ∨ startIp > broadcastAddr 32 p)))
    ∧ recordInPrefixCheck [("inetnum".data, JVal.str "10.0.0.128 - 10.0.0.200".data)]
        (.v4 ⟨167772160, 24⟩) = some true
    ∧ recordInPrefixCheck [("inetnum".data, JVal.str "10.0.1.0 - 10.0.1.50".data)]
        (.v4 ⟨167772160, 24⟩) = some false := by
  refine ⟨?_, by rfl, by rfl⟩
  intro p record s a b startIp endIp hs hsep hsplit hstart hend
  dsimp only at hsep hsplit hstart hend
  unfold recordInPrefixCheck
  rw [hs]
  show some (recordInPrefixStr s (.v4 p)) = some true ↔ _
  unfold recordInPrefixStr
  dsimp only
  rw [if_pos hsep, hsplit]
  dsimp only
  rw [hstart, hend]
  simp

/-- Witness for C1 (amended) at the claim's two concrete records. -/
theorem claim_C1_witness :
    (recordInPrefixCheck [("inetnum".data, JVal.str "10.0.0.128 - 10.0.0.200".data)]
        (.v4 ⟨167772160, 24⟩) = some true
      ↔ ¬ ((167772360 : Nat) < (PyIPNetwork.mk 167772160 24).networkAddress
          ∨ (167772288 : Nat) > broadcastAddr 32 ⟨167772160, 24⟩))
    ∧ (recordInPrefixCheck [("inetnum".data, JVal.str "10.0.1.0 - 10.0.1.50".data)]
        (.v4 ⟨167772160, 24⟩) = some true
      ↔ ¬ ((167772466 : Nat) < (PyIPNetwork.mk 167772160 24).networkAddress
          ∨ (167772416 : Nat) > broadcastAddr 32 ⟨167772160, 24⟩)) :=
  ⟨claim_C1_range_filter_amended.1 _ _ _ _ _ _ _
      (by rfl) (by rfl) (by rfl) (by rfl) (by rfl),
   claim_C1_range_filter_amended.1 _ _ _ _ _ _ _
      (by rfl) (by rfl) (by rfl) (by rfl) (by rfl)⟩

/-- Claim C8: for a target produced by the normalizer, a candidate record in
CIDR form is admitted exactly when the two networks share at least one
address (partial or full containment in either direction), and a record
whose `inetnum` cannot be parsed under either the range form or the CIDR
form is excluded. -/
theorem claim_C8_cidr_overlap :
    (∀ (s0 s : Str) (p n : PyIPNetwork),
      validatePrefixStr s0 = .ok (.v4 p) → hasSeq " - ".data s = false →
      parseIPv4Network s false = .ok n →
      (recordInPrefixStr s (.v4 p) = true ↔ ∃ x, inRangeN 32 n x ∧ inRangeN 32 p x))
    ∧ (∀ (s0 s : Str) (p n : PyIPNetwork),
      validatePrefixStr s0 = .ok (.v6 p) → parseIPv6Network s false = .ok n →
      (recordInPrefixStr s (.v6 p) = true ↔ ∃ x, inRangeN 128 n x ∧ inRangeN 128 p x))
    ∧ (∀ (p : PyIPNetwork) (s : Str) (e : PyErr), hasSeq " - ".data s = false →
      parseIPv4Network s false = .error e → recordInPrefixStr s (.v4 p) = false)
    ∧ (∀ (p : PyIPNetwork) (s : Str) (e : PyErr),
      parseIPv6Network s false = .error e → recordInPrefixStr s (.v6 p) = false)
    ∧ (∀ (p : PyIPNetwork) (s a b : Str) (e : PyErr), hasSeq " - ".data s = true →
      pySplitSeq s " - ".data = [a, b] → parseIPv4Address (pyStrip a) = .error e →
      recordInPrefixStr s (.v4 p) = false)
    ∧ (∀ (p : PyIPNetwork) (s a b : Str) (ipa : Nat) (e : PyErr),
      hasSeq " - ".data s = true → pySplitSeq s " - ".data = [a, b] →
      parseIPv4Address (pyStrip a) = .ok ipa → parseIPv4Address (pyStrip b) = .error e →
      recordInPrefixStr s (.v4 p) = false)
    ∧ (∀ (p : PyIPNetwork) (s : Str), hasSeq " - ".data s = true →
      (pySplitSeq s " - ".data).length ≠ 2 → recordInPrefixStr s (.v4 p) = false) := by
  refine ⟨?_, ?_, ?_, ?_, ?_, ?_, ?_⟩
  · intro s0 s p n h0 hsep hn
    dsimp only at hsep
    unfold recordInPrefixStr
    dsimp only
    rw [if_neg (by simp [hsep]), hn]
    exact overlaps_iff (parseIPv4Network_normalized hn) (validate_ok_v4_normalized h0)
  · intro s0 s p n h0 hn
    unfold recordInPrefixStr
    dsimp only
    rw [hn]
    exact overlaps_iff (parseIPv6Network_normalized hn) (validate_ok_v6_normalized h0)
  · intro p s e hsep hn
    dsimp only at hsep
    unfold recordInPrefixStr
    dsimp only
    rw [if_neg (by simp [hsep]), hn]
  · intro p s e hn
    unfold recordInPrefixStr
    dsimp only
    rw [hn]
  · intro p s a b e hsep hsplit ha
    dsimp only at hsep hsplit
    unfold recordInPrefixStr
    dsimp only
    rw [if_pos hsep, hsplit]
    dsimp only
    rw [ha]
  · intro p s a b ipa e hsep hsplit ha hb
    dsimp only at hsep hsplit
    unfold recordInPrefixStr
    dsimp only
    rw [if_pos hsep, hsplit]
    dsimp only
    rw [ha, hb]
  · intro p s hsep hlen
    dsimp only at hsep hlen
    unfold recordInPrefixStr
    dsimp only
    rw [if_pos hsep]
    split
    · rename_i heq
      rw [heq] at hlen
      simp at hlen
    · rfl

/-- Witness for C8: a CIDR record against the validated `10.0.0.0/24`
target, and an unparsable record. -/
theorem claim_C8_witness :
    (recordInPrefixStr "10.0.0.0/25".data (.v4 ⟨167772160, 24⟩) = true
      ↔ ∃ x, inRangeN 32 ⟨167772160, 25⟩ x ∧ inRangeN 32 ⟨167772160, 24⟩ x)
    ∧ recordInPrefixStr "garbage".data (.v4 ⟨167772160, 24⟩) = false :=
  ⟨claim_C8_cidr_overlap.1 "10.0.0.0/24".data _ _ _ (by rfl) (by rfl) (by rfl),
   claim_C8_cidr_overlap.2.2.1 _ _
     (.addressValueError "Expected 4 octets in garbage".data) (by rfl) (by rfl)⟩
